import Mathlib

/-!
Stockfish Analyzer: verification of the engine-session / analysis-loop spec
against the single source file `src/StockfishGUI.py`.

Shallow embedding.  Pure helpers (`square_to_uci`) become Lean functions;
the stateful pieces (the background `analyze` loop, `square_clicked`,
`undo_move`, `quit_game`, `start_engine`) become explicit state-passing
functions over small state records.  The chess library (python-chess) and the
Tk toolkit are external collaborators; their behaviour at the exact call
sites the GUI uses is modelled by small functions documented at each
definition, and the click handler is additionally parametrised over an
abstract rules interface, matching the spec, which treats the rules engine
as an opaque capability.
-/

namespace StockfishGUI

/-- Source lines 137-140: `file = chr(ord("a") + c)`, `rank = str(8 - r)`,
return `file + rank`. -/
def square_to_uci (r c : Nat) : String :=
  String.mk [Char.ofNat (Char.toNat 'a' + c)] ++ toString (8 - r)

/-- A two-character algebraic square name in the range a1..h8. -/
def is_square_name (s : String) : Bool :=
  match s.data with
  | [f, k] => decide ('a' ≤ f) && decide (f ≤ 'h') && decide ('1' ≤ k) && decide (k ≤ '8')
  | _ => false

/-- Source lines 185-188: `if len(self.board.move_stack) > 0: self.board.pop()`.
`Board.pop()` removes exactly the last move and restores the position before
it, so the board is modelled by its move stack. -/
def undo_move (move_stack : List String) : List String :=
  if 0 < move_stack.length then move_stack.dropLast else move_stack

/-- One engine request, as issued by the `analyze` loop (source lines
111-115): `self.engine.analyse(self.board, chess.engine.Limit(depth=12),
multipv=3)`. -/
structure EngineRequest where
  position : String
  depth : Nat
  multipv : Nat
deriving DecidableEq, Repr

/-- The requests the `analyze` loop issues over a run of cycles, given the
serialised board observed at each cycle: the loop body calls
`engine.analyse` unconditionally on every iteration, with the literal
arguments `depth=12` and `multipv=3`. -/
def analyze_requests (boards : List String) : List EngineRequest :=
  boards.map fun b => ⟨b, 12, 3⟩

/-- A published analysis result: the text the loop renders for one cycle,
tagged with the sequence number the spec postulates (the index of the cycle
that computed it).  The source stores only the text; the tag is carried so
the publish contract of the spec can be stated, and the code never examines
it. -/
structure AnalysisSnapshot where
  sequence_number : Nat
  text : String
deriving DecidableEq, Repr

/-- The publish step of the loop (source lines 130-132):
`self.eval_text.delete("1.0", tk.END)` followed by `insert`.  The previous
contents of the slot are discarded unconditionally; nothing is compared. -/
def publish (_slot : Option AnalysisSnapshot) (s : AnalysisSnapshot) : Option AnalysisSnapshot :=
  some s

/-- Outcome of one iteration body: either the engine produced a result that
was rendered to text, or some exception was raised (engine terminated,
analyse failed, ...). -/
inductive CycleOutcome where
  | success (text : String)
  | failure
deriving DecidableEq, Repr

/-- State of the background loop: the `running` flag and the text slot. -/
structure LoopState where
  running : Bool
  slot : Option AnalysisSnapshot
deriving DecidableEq, Repr

/-- One iteration body of `analyze` (source lines 109-135): on success the
rendered text is published; on any exception the `except Exception: pass`
handler discards it and leaves every piece of state untouched. -/
def analyze_cycle (st : LoopState) (seq : Nat) : CycleOutcome → LoopState
  | .success t => { st with slot := publish st.slot ⟨seq, t⟩ }
  | .failure => st

/-- The `while self.running:` loop (source line 108), run over a finite
schedule of cycle outcomes. -/
def analyze_loop (st : LoopState) (seq : Nat) : List CycleOutcome → LoopState
  | [] => st
  | o :: rest =>
    if st.running then analyze_loop (analyze_cycle st seq o) (seq + 1) rest else st

/-- A python-chess `PovScore` as the loop receives it: the engine reports the
centipawn score relative to the side to move, together with which side was to
move in the analysed position. -/
structure PovScore where
  relative_cp : Int
  turn_white : Bool
deriving DecidableEq, Repr

/-- Source line 120, `score = info["score"].white()`: the numeric value the
loop publishes is the score from the fixed point of view of White, i.e. the
relative score negated exactly when Black is to move. -/
def published_score_cp (s : PovScore) : Int :=
  if s.turn_white then s.relative_cp else -s.relative_cp

/-- Modelled from the spec: the orientation section 4.1 requires for the
published value, the evaluation from the perspective of the side that was to
move in the requested position - which is exactly the engine-relative
value. -/
def spec_oriented_cp (s : PovScore) : Int :=
  s.relative_cp

/-- Outcome of program start-up: either an engine process handle was
obtained for the executable at `path`, or an error dialog was shown and the
program exited with the given status code. -/
inductive StartOutcome where
  | ok (path : String)
  | exitError (dialog : String) (code : Nat)
deriving DecidableEq, Repr

/-- Source lines 13-30, `find_stockfish`, over the three facts it consults:
whether the program runs frozen (PyInstaller), whether the bundled
`stockfish.exe` exists, and whether one exists next to the script.  When
neither is found it shows the "Stockfish Not Found" dialog and calls
`sys.exit(1)`. -/
def find_stockfish (frozen bundled_exists local_exists : Bool) : StartOutcome :=
  if frozen && bundled_exists then .ok "bundle/stockfish.exe"
  else if local_exists then .ok "./stockfish.exe"
  else .exitError "Stockfish Not Found" 1

/-- Source lines 93-100, `start_engine`: locate the executable, then attempt
`SimpleEngine.popen_uci` exactly once; if that raises, show the
"Engine Error" dialog and call `sys.exit(1)`.  `popen_ok` records whether
the single launch attempt succeeds. -/
def start_engine (frozen bundled_exists local_exists popen_ok : Bool) : StartOutcome :=
  match find_stockfish frozen bundled_exists local_exists with
  | .exitError d c => .exitError d c
  | .ok path => if popen_ok then .ok path else .exitError "Engine Error" 1

/-- Number of times one call of `start_engine` invokes `popen_uci`: once
when an executable was found, never otherwise.  There is no retry loop in
the source. -/
def popen_attempts (frozen bundled_exists local_exists : Bool) : Nat :=
  match find_stockfish frozen bundled_exists local_exists with
  | .ok _ => 1
  | .exitError _ _ => 0

/-- Start-up outcomes that show an error dialog and terminate the program
with exit status 1. -/
def startup_failed : StartOutcome → Bool
  | .exitError _ 1 => true
  | _ => false

/-- Application state touched by `quit_game` (source lines 190-194): the
`running` flag, the engine handle (`none` would mean released; the source
never clears the field, it holds `some alive`), and whether the Tk root
window is still alive. -/
structure AppState where
  running : Bool
  engine : Option Bool
  root_alive : Bool
deriving DecidableEq, Repr

/-- Exceptions the two teardown calls can raise. -/
inductive QuitError where
  | engineTerminated
  | tclError
deriving DecidableEq, Repr

/-- A python-chess `SimpleEngine.quit()` at this call site: on a live engine
it sends the quit command and the process exits; invoked again after the
engine has terminated it raises `EngineTerminatedError`. -/
def engine_quit : Bool → Except QuitError Bool
  | true => .ok false
  | false => .error .engineTerminated

/-- Tk `root.destroy()`: destroys a live root; raises `TclError` when the
application has already been destroyed. -/
def root_destroy : Bool → Except QuitError Bool
  | true => .ok false
  | false => .error .tclError

/-- Source lines 190-194, `quit_game`: set `self.running = False`; if the
engine handle is set (truthy) call `self.engine.quit()`; then
`self.root.destroy()`.  There is no exception handler, so a raise propagates
and the later statements do not run, while state mutated before the raise
persists.  The handle is never cleared. -/
def quit_game (st : AppState) : AppState × Option QuitError :=
  let st1 := { st with running := false }
  match st1.engine with
  | some alive =>
    match engine_quit alive with
    | .ok alive2 =>
      let st2 := { st1 with engine := some alive2 }
      match root_destroy st2.root_alive with
      | .ok r => ({ st2 with root_alive := r }, none)
      | .error e => (st2, some e)
    | .error e => (st1, some e)
  | none =>
    match root_destroy st1.root_alive with
    | .ok r => ({ st1 with root_alive := r }, none)
    | .error e => (st1, some e)

/-- The capabilities `square_clicked` consumes from the chess library: the
start position, a legal-move test, move application, and piece lookup (all
keyed by UCI move / square strings, as the handler builds them).  The GUI
treats the library as opaque, so the handler is stated over any such
interface. -/
structure Rules (Pos : Type) where
  initial : Pos
  legal : Pos → String → Bool
  push : Pos → String → Pos
  piece_at : Pos → String → Bool

/-- Source line 145, `chess.Move.from_uci(self.selected_square + square)` at
this call site: both halves are valid square names, so the only failure mode
is the same-square case, where `from_uci` raises `InvalidMoveError` (a UCI
string of a non-null move may not have equal origin and destination). -/
def move_from_squares (sel square : String) : Option String :=
  if sel = square then none else some (sel ++ square)

/-- GUI state touched by the click handler: the board and
`self.selected_square`. -/
structure GUIState (Pos : Type) where
  board : Pos
  selected_square : Option String
deriving DecidableEq, Repr

/-- The selected-square branch of `square_clicked` (source lines 144-148):
parse the move string; if parsing raises, the Tk callback aborts with every
piece of state untouched (in particular `self.selected_square = None` never
runs); otherwise push the move only if it is legal, and clear the
selection. -/
def handle_selected {Pos : Type} (R : Rules Pos) (st : GUIState Pos) (sel square : String) :
    GUIState Pos :=
  match move_from_squares sel square with
  | none => st
  | some mv =>
    if R.legal st.board mv then { board := R.push st.board mv, selected_square := none }
    else { st with selected_square := none }

/-- Source lines 142-152, `square_clicked`: with a selection pending, handle
the move attempt; with no selection, select the square if a piece stands on
it. -/
def square_clicked {Pos : Type} (R : Rules Pos) (st : GUIState Pos) (r c : Nat) : GUIState Pos :=
  match st.selected_square with
  | some sel => handle_selected R st sel (square_to_uci r c)
  | none =>
    if R.piece_at st.board (square_to_uci r c) then
      { st with selected_square := some (square_to_uci r c) }
    else st

/-- A sequence of clicks applied from a given GUI state. -/
def run_clicks {Pos : Type} (R : Rules Pos) (st : GUIState Pos) :
    List (Nat × Nat) → GUIState Pos
  | [] => st
  | p :: rest => run_clicks R (square_clicked R st p.1 p.2) rest

/-- Positions reachable from the start position by pushing legal moves. -/
inductive Reachable {Pos : Type} (R : Rules Pos) : Pos → Prop where
  | init : Reachable R R.initial
  | step {b : Pos} {m : String} :
      Reachable R b → R.legal b m = true → Reachable R (R.push b m)

/-- A concrete instance of the rules interface for evaluating the handler:
the board is the list of pushed moves, every square is occupied (as e2 is in
the real start position), and no move is legal. -/
def demoRules : Rules (List String) :=
  { initial := []
    legal := fun _ _ => false
    push := fun b m => b ++ [m]
    piece_at := fun _ _ => true }

/-! Helper lemmas (shared facts about the embedding, not claim results). -/

/-- The iteration body never changes the `running` flag: no statement in the
`try` or `except` blocks writes it. -/
theorem analyze_cycle_running (st : LoopState) (seq : Nat) (o : CycleOutcome) :
    (analyze_cycle st seq o).running = st.running := by
  cases o <;> rfl

/-- The loop never changes the `running` flag either; only `quit_game`
writes it. -/
theorem analyze_loop_running (outs : List CycleOutcome) (st : LoopState) (seq : Nat) :
    (analyze_loop st seq outs).running = st.running := by
  induction outs generalizing st seq with
  | nil => rfl
  | cons o rest ih =>
    cases hr : st.running with
    | true => simp [analyze_loop, hr, ih, analyze_cycle_running]
    | false => simp [analyze_loop, hr]

/-! Claim results. -/

/-- Claim C1, counterexample: publishing a snapshot whose sequence number
(3) is lower than the stored one (5) still replaces the slot, so a consumer
observes the sequence number decrease from 5 to 3 - the publish step has no
monotonicity guard. -/
theorem publish_stale_overwrite_cex :
    publish (some ⟨5, "newer"⟩) ⟨3, "stale"⟩ = some ⟨3, "stale"⟩ ∧ (3 : Nat) < 5 :=
  ⟨rfl, by decide⟩

/-- Claim C1, amended: the publish step replaces the stored analysis
unconditionally - the text box is cleared and rewritten on every successful
cycle with no sequence-number comparison, so the stored snapshot is always
the most recently published one. -/
theorem publish_unconditional :
    (∀ slot s, publish slot s = some s) ∧
    (∀ st seq t, (analyze_cycle st seq (CycleOutcome.success t)).slot = some ⟨seq, t⟩) :=
  ⟨fun _ _ => rfl, fun _ _ _ => rfl⟩

/-- Claim C2, counterexample: with Black to move and an engine-relative
score of +50 centipawns, the loop publishes -50 (White point of view via
`PovScore.white()`), not the +50 the side-to-move orientation requires. -/
theorem published_score_not_side_to_move_cex :
    published_score_cp ⟨50, false⟩ = -50 ∧
    spec_oriented_cp ⟨50, false⟩ = 50 ∧
    published_score_cp ⟨50, false⟩ ≠ spec_oriented_cp ⟨50, false⟩ :=
  ⟨rfl, rfl, by decide⟩

/-- Claim C2, amended: the published centipawn value is oriented from the
fixed perspective of White - it equals the side-to-move evaluation when
White is to move and its negation when Black is to move. -/
theorem published_score_white_pov (s : PovScore) :
    published_score_cp s = if s.turn_white then spec_oriented_cp s else -spec_oriented_cp s :=
  rfl

/-- Claim C3, counterexample: a failing cycle (engine died, analyse raised)
leaves the loop state untouched - still running, nothing surfaced - and the
loop proceeds to retry on the very next cycle, publishing as if nothing
happened. -/
theorem analyze_swallows_failure_cex :
    analyze_cycle ⟨true, some ⟨0, "before"⟩⟩ 1 CycleOutcome.failure =
      ⟨true, some ⟨0, "before"⟩⟩ ∧
    analyze_loop ⟨true, none⟩ 0 [CycleOutcome.failure, CycleOutcome.success "retried"] =
      ⟨true, some ⟨1, "retried"⟩⟩ :=
  ⟨rfl, rfl⟩

/-- Claim C3, amended: the `except Exception: pass` handler swallows every
cycle failure - a failing cycle leaves the state unchanged and the loop
keeps its `running` flag under every schedule, so no failure is ever
surfaced and the loop never halts itself. -/
theorem analyze_failure_silent :
    (∀ st seq, analyze_cycle st seq CycleOutcome.failure = st) ∧
    (∀ st seq outs, (analyze_loop st seq outs).running = st.running) :=
  ⟨fun _ _ => rfl, fun st seq outs => analyze_loop_running outs st seq⟩

/-- Claim C4, counterexample: over two cycles that observe the same position
token, the loop issues two requests - the second cycle re-requests although
the change token is unchanged, because the loop performs no change
detection. -/
theorem analyze_requests_unchanged_position_cex :
    analyze_requests ["same-pos", "same-pos"] =
      [⟨"same-pos", 12, 3⟩, ⟨"same-pos", 12, 3⟩] :=
  rfl

/-- Claim C4, amended: the loop issues exactly one analysis request on every
cycle, for whatever board it observes that cycle, unconditionally - there is
no change-token comparison and an unchanged position is re-analysed each
cycle. -/
theorem analyze_requests_every_cycle (boards : List String) :
    (analyze_requests boards).length = boards.length ∧
    (analyze_requests boards).map EngineRequest.position = boards := by
  refine ⟨by simp [analyze_requests], ?_⟩
  induction boards with
  | nil => rfl
  | cons b rest ih => simpa [analyze_requests] using ih

/-- Claim C5: every request the loop issues carries the literal
`multipv=3` and `depth=12` arguments of the `engine.analyse` call. -/
theorem analyze_requests_fixed_params (boards : List String) (r : EngineRequest)
    (hr : r ∈ analyze_requests boards) :
    r.multipv = 3 ∧ r.depth = 12 := by
  simp only [analyze_requests, List.mem_map] at hr
  obtain ⟨b, -, rfl⟩ := hr
  exact ⟨rfl, rfl⟩

/-- Claim C5, witness: the request of a one-cycle run at the start position
has `multipv = 3` and `depth = 12`. -/
theorem analyze_requests_fixed_params_witness :
    (⟨"startpos", 12, 3⟩ : EngineRequest).multipv = 3 ∧
    (⟨"startpos", 12, 3⟩ : EngineRequest).depth = 12 :=
  analyze_requests_fixed_params ["startpos"] ⟨"startpos", 12, 3⟩ (by decide)

/-- Claim C6: when the launch attempt fails (or no executable was found at
all), start-up ends in an error dialog and exit status 1, and `popen_uci` is
attempted at most once - the failure is surfaced, never retried. -/
theorem start_engine_unavailable (frozen bundled_exists local_exists popen_ok : Bool)
    (h : popen_ok = false ∨ ((frozen && bundled_exists) = false ∧ local_exists = false)) :
    startup_failed (start_engine frozen bundled_exists local_exists popen_ok) = true ∧
    popen_attempts frozen bundled_exists local_exists ≤ 1 := by
  revert h
  revert frozen bundled_exists local_exists popen_ok
  decide

/-- Claim C6, witness: with an executable found in every location but the
launch failing, start-up fails with a surfaced error and a single launch
attempt. -/
theorem start_engine_unavailable_witness :
    startup_failed (start_engine true true true false) = true ∧
    popen_attempts true true true ≤ 1 :=
  start_engine_unavailable true true true false (Or.inl rfl)

/-- Claim C7, counterexample: from a live application, the first `quit_game`
completes but leaves the engine field still holding the (now dead) handle;
the second `quit_game` re-invokes `engine.quit()` on the terminated engine
and raises `EngineTerminatedError`rather than succeeding. -/
theorem quit_game_twice_cex :
    quit_game ⟨true, some true, true⟩ = (⟨false, some false, false⟩, none) ∧
    quit_game ⟨false, some false, false⟩ =
      (⟨false, some false, false⟩, some QuitError.engineTerminated) :=
  ⟨rfl, rfl⟩

/-- Claim C7, amended: shutdown is not idempotent - `quit_game` never
releases the engine handle, so after one completed shutdown the handle is
still present and a second invocation raises `EngineTerminatedError` from
re-quitting the dead engine instead of succeeding. -/
theorem quit_game_not_idempotent (st : AppState)
    (he : st.engine = some true) (hr : st.root_alive = true) :
    quit_game st = (⟨false, some false, false⟩, none) ∧
    (quit_game (quit_game st).1).2 = some QuitError.engineTerminated ∧
    (quit_game st).1.engine ≠ none := by
  obtain ⟨run, eng, root⟩ := st
  have he2 : eng = some true := he
  have hr2 : root = true := hr
  subst he2
  subst hr2
  exact ⟨rfl, rfl, Option.some_ne_none false⟩

/-- Claim C7, witness: the amended statement at the live start state. -/
theorem quit_game_not_idempotent_witness :
    quit_game ⟨true, some true, true⟩ = (⟨false, some false, false⟩, none) ∧
    (quit_game (quit_game ⟨true, some true, true⟩).1).2 = some QuitError.engineTerminated ∧
    (quit_game ⟨true, some true, true⟩).1.engine ≠ none :=
  quit_game_not_idempotent ⟨true, some true, true⟩ rfl rfl

/-- One click preserves reachability of the board: the only mutation is
`self.board.push(move)` guarded by `move in self.board.legal_moves`. -/
theorem square_clicked_reachable {Pos : Type} (R : Rules Pos) (st : GUIState Pos) (r c : Nat)
    (h : Reachable R st.board) : Reachable R (square_clicked R st r c).board := by
  obtain ⟨b, sq⟩ := st
  cases sq with
  | none =>
    simp only [square_clicked]
    cases hp : R.piece_at b (square_to_uci r c) <;> simp [hp] <;> exact h
  | some sel =>
    simp only [square_clicked, handle_selected, move_from_squares]
    by_cases he : sel = square_to_uci r c
    · simp only [if_pos he]
      exact h
    · simp only [if_neg he]
      cases hl : R.legal b (sel ++ square_to_uci r c) with
      | true => simpa [hl] using Reachable.step h hl
      | false => simpa [hl] using h

/-- A whole click sequence preserves reachability. -/
theorem run_clicks_reachable {Pos : Type} (R : Rules Pos) (st : GUIState Pos)
    (clicks : List (Nat × Nat)) (h : Reachable R st.board) :
    Reachable R (run_clicks R st clicks).board := by
  induction clicks generalizing st with
  | nil => exact h
  | cons p rest ih => exact ih _ (square_clicked_reachable R st p.1 p.2 h)

/-- A click pair whose move is not legal never changes the board. -/
theorem handle_selected_board {Pos : Type} (R : Rules Pos) (st : GUIState Pos)
    (sel square : String) (hillegal : R.legal st.board (sel ++ square) = false) :
    (handle_selected R st sel square).board = st.board := by
  simp only [handle_selected, move_from_squares]
  by_cases he : sel = square
  · simp [he]
  · simp [he, hillegal]

/-- Claim C8, counterexample: select e2 (occupied at the start position),
then click e2 again.  The pair encodes the illegal move string e2e2, the
board is unchanged - but the selection is NOT cleared: `Move.from_uci`
raises on the same-square string, the Tk callback aborts, and
`self.selected_square = None` never runs, so e2 stays selected. -/
theorem square_clicked_same_square_cex :
    (run_clicks demoRules ⟨demoRules.initial, none⟩ [(6, 4), (6, 4)]).board =
      demoRules.initial ∧
    (run_clicks demoRules ⟨demoRules.initial, none⟩ [(6, 4), (6, 4)]).selected_square =
      some "e2" := by
  constructor <;> decide

/-- Claim C8, amended: the board is mutated only by pushing a move that is
legal in the current position - a click pair whose move is illegal leaves
the board unchanged (though for a same-square pair the selection survives,
the parse error aborting the callback) - so from a reachable board every
click sequence again yields a reachable board. -/
theorem square_clicked_board_invariant {Pos : Type} (R : Rules Pos) (st : GUIState Pos)
    (clicks : List (Nat × Nat)) (sel : String) (r c : Nat)
    (hreach : Reachable R st.board)
    (hsel : st.selected_square = some sel)
    (hillegal : R.legal st.board (sel ++ square_to_uci r c) = false) :
    Reachable R (run_clicks R st clicks).board ∧
    (square_clicked R st r c).board = st.board := by
  refine ⟨run_clicks_reachable R st clicks hreach, ?_⟩
  obtain ⟨b, sq⟩ := st
  have hs2 : sq = some sel := hsel
  subst hs2
  exact handle_selected_board R ⟨b, some sel⟩ sel (square_to_uci r c) hillegal

/-- Claim C8, witness: the amended statement at the start state with e2
selected and a click on e2 (an illegal pair under the demo rules, where no
move is legal). -/
theorem square_clicked_board_invariant_witness :
    Reachable demoRules (run_clicks demoRules ⟨[], some "e2"⟩ [(6, 4)]).board ∧
    (square_clicked demoRules ⟨[], some "e2"⟩ 6 4).board = [] :=
  square_clicked_board_invariant demoRules ⟨[], some "e2"⟩ [(6, 4)] "e2" 6 4
    Reachable.init rfl (by decide)

/-- Claim C9: `undo_move` with an empty move stack is a no-op (and raises
nothing - the pop is guarded by the length check); with a non-empty stack it
removes exactly the last move. -/
theorem undo_move_spec (s : List String) :
    (s = [] → undo_move s = s) ∧ (s ≠ [] → undo_move s = s.dropLast) := by
  constructor
  · intro h
    subst h
    rfl
  · intro h
    unfold undo_move
    rw [if_pos (List.length_pos.mpr h)]

/-- Claim C9, witness: undo on the empty history returns the empty history;
undo after e2e4 e7e5 returns exactly e2e4. -/
theorem undo_move_spec_witness :
    undo_move ([] : List String) = [] ∧ undo_move ["e2e4", "e7e5"] = ["e2e4"] :=
  ⟨(undo_move_spec []).1 rfl, ((undo_move_spec ["e2e4", "e7e5"]).2 (by decide)).trans (by decide)⟩

/-- Claim C10: for every row and column of the 8x8 grid, `square_to_uci`
returns the two-character string of file `chr(ord("a")+c)` and rank
`str(8-r)`, a valid square name in a1..h8, and it is injective on the
grid. -/
theorem square_to_uci_spec :
    ∀ r c : Fin 8,
      square_to_uci r.val c.val =
        String.mk [Char.ofNat (97 + c.val), Char.ofNat (56 - r.val)] ∧
      is_square_name (square_to_uci r.val c.val) = true ∧
      ∀ r2 c2 : Fin 8, square_to_uci r2.val c2.val = square_to_uci r.val c.val →
        r2 = r ∧ c2 = c := by
  decide

/-- Claim C10, witness: the statement evaluated at the top-left square a8. -/
theorem square_to_uci_spec_witness :
    square_to_uci (0 : Fin 8).val (0 : Fin 8).val =
      String.mk [Char.ofNat 97, Char.ofNat 56] ∧
    is_square_name (square_to_uci (0 : Fin 8).val (0 : Fin 8).val) = true ∧
    ((0 : Fin 8) = 0 ∧ (0 : Fin 8) = 0) := by
  have h := square_to_uci_spec 0 0
  exact ⟨h.1, h.2.1, h.2.2 0 0 rfl⟩

end StockfishGUI
